import Mathlib

/-!
Shallow embedding of the change-detection core of `website_monitor.py`
(class `WebsiteMonitor`), together with proofs about its behaviour.

Conventions of the embedding:
* Python strings are `String` (Python `len` counts code points, matching
  `String.length` = `List.length` of `String.data`).
* Python integers are `Nat`/`Int`; 32-bit words in the SHA-256 digest are
  `Nat` reduced modulo `2^32` at every operation.
* The BeautifulSoup HTML parser is an external library.  Every place the
  source feeds markup through it is modelled by an explicit function
  parameter (`soupStrip` for `normalize_content`, `extract` for
  `get_clean_text`, `applySel` for the CSS-selector narrowing), plus the
  `try/except` fallbacks translated faithfully.  `plainParse` instantiates
  the parser parameter for markup-free input, on which `html.parser`
  returns the input itself as a single text node.
* The regex operations of the source (`re.split`, `re.sub`) are translated
  into executable scanners with Python's leftmost-match, first-alternative
  semantics.
* `hashlib.sha256(...).hexdigest()` is implemented in full (FIPS 180-4)
  over the UTF-8 byte encoding of the input string.
-/

/-! ## Python string primitives -/

/-- Character set of Python's `str.isspace` / Unicode `\s` used by
`str.strip()` and the `re.sub(r'\s+', ' ', ...)` collapses. -/
def pyWSChars : List Char :=
  [' ', '\t', '\n', '\r', '\x0B', '\x0C',
   '\x1C', '\x1D', '\x1E', '\x1F', '\x85', '\xA0',
   ' ', ' ', ' ', ' ', ' ', ' ', ' ',
   ' ', ' ', ' ', ' ', ' ', ' ', ' ',
   ' ', ' ', '　']

/-- Whitespace test for the embedding of `\s` and `str.strip()`. -/
def isPyWS (c : Char) : Bool := pyWSChars.contains c

/-- Embedding of Python `str.strip()` on a character list: drop leading and
trailing whitespace. -/
def pyStripL (l : List Char) : List Char :=
  List.rdropWhile isPyWS (List.dropWhile isPyWS l)

/-- Embedding of Python `str.strip()` on `String`. -/
def pyStrip (s : String) : String := String.mk (pyStripL s.data)

/-- State-machine core of `re.sub(r'\s+', ' ', t)`: every maximal run of
whitespace is replaced by a single space.  The Boolean records whether the
previous character was inside a whitespace run. -/
def collapseAux : List Char → Bool → List Char
  | [], _ => []
  | c :: rest, inWS =>
    if isPyWS c then
      if inWS then collapseAux rest true else ' ' :: collapseAux rest true
    else
      c :: collapseAux rest false

/-- Embedding of `re.sub(r'\s+', ' ', t)`. -/
def pyCollapseWS (l : List Char) : List Char := collapseAux l false

/-- Embedding of Python `' '.join(texts)` on character lists. -/
def joinSpaceL : List (List Char) → List Char
  | [] => []
  | [x] => x
  | x :: y :: rest => x ++ ' ' :: joinSpaceL (y :: rest)

/-- ASCII lower-casing, the case folding relevant to the (all-ASCII)
alternation of `get_clean_text`'s `re.sub(..., flags=re.I)`. -/
def lowerAZ (c : Char) : Char :=
  if 'A' ≤ c ∧ c ≤ 'Z' then Char.ofNat (c.toNat + 32) else c

/-- Alternatives of the UI-noise pattern
`(cookie|privacy|accept|decline|login|sign up|subscribe|menu|search|advertisement|ad)`
in source order (Python's regex engine tries alternatives left to right). -/
def uiTokens : List (List Char) :=
  ["cookie".data, "privacy".data, "accept".data, "decline".data,
   "login".data, "sign up".data, "subscribe".data, "menu".data,
   "search".data, "advertisement".data, "ad".data]

/-- Case-insensitive literal match of a token against the front of the
input. -/
def matchCI : List Char → List Char → Bool
  | [], _ => true
  | _ :: _, [] => false
  | t :: ts, c :: cs => lowerAZ c == t && matchCI ts cs

/-- Length of the first alternative of the UI-noise pattern matching at the
front of the input, if any. -/
def firstTokLen (l : List Char) : Option Nat :=
  (uiTokens.find? (fun t => matchCI t l)).map List.length

/-- Scanner of `re.sub(pattern, '', full_text, flags=re.I)` for the
UI-noise alternation: at each position the first matching alternative is
deleted and scanning resumes after it (non-overlapping, leftmost first).
The `Nat` argument counts characters of a recognised match still to be
skipped. -/
def rnAux : List Char → Nat → List Char
  | [], _ => []
  | c :: cs, 0 =>
    match firstTokLen (c :: cs) with
    | some k => rnAux cs (k - 1)
    | none => c :: rnAux cs 0
  | _ :: cs, Nat.succ k => rnAux cs k

/-- Embedding of the UI-noise removal substitution of `get_clean_text`. -/
def removeUINoise (l : List Char) : List Char := rnAux l 0

/-- Sentence-terminal punctuation of the splitting pattern
`(?<=[.!?])\s+(?=[A-Z])`. -/
def isSentEnd (c : Char) : Bool := c == '.' || c == '!' || c == '?'

/-- Uppercase ASCII test for the `(?=[A-Z])` lookahead. -/
def isUpperAZ (c : Char) : Bool := decide ('A' ≤ c) && decide (c ≤ 'Z')

/-- Scanner of `re.split(r'(?<=[.!?])\s+(?=[A-Z])', t)`.  A split point is
a maximal nonempty whitespace run whose preceding character is `.`/`!`/`?`
and whose following character is an uppercase ASCII letter (greedy `\s+`
with the two lookarounds; a shorter run can never satisfy the lookahead).
`seg` holds the current segment reversed, `run` a candidate whitespace run
reversed, `inR` whether such a run is open. -/
def splitAux : List Char → List Char → List Char → Bool → List (List Char)
  | [], seg, run, inR => [(if inR then run ++ seg else seg).reverse]
  | c :: rest, seg, run, false =>
    if isPyWS c && (match seg with | p :: _ => isSentEnd p | [] => false) then
      splitAux rest seg [c] true
    else
      splitAux rest (c :: seg) run false
  | c :: rest, seg, run, true =>
    if isPyWS c then
      splitAux rest seg (c :: run) true
    else if isUpperAZ c then
      seg.reverse :: splitAux rest [c] [] false
    else
      splitAux rest (c :: (run ++ seg)) [] false

/-- Embedding of `re.split(r'(?<=[.!?])\s+(?=[A-Z])', t)`. -/
def pySplitSegs (t : List Char) : List (List Char) := splitAux t [] [] false

/-- Embedding of Python slicing `s[:n]` on strings. -/
def strTake (s : String) (n : Nat) : String := String.mk (s.data.take n)

/-! ## SHA-256 (`hashlib.sha256(content.encode('utf-8')).hexdigest()`) -/

/-- Reduction modulo `2^32`, the word size of SHA-256 arithmetic. -/
def w32 (n : Nat) : Nat := n % 4294967296

/-- Right rotation of a 32-bit word. -/
def rotr (x n : Nat) : Nat := w32 (x / 2 ^ n + x % 2 ^ n * 2 ^ (32 - n))

/-- Three-way xor. -/
def xor3 (a b c : Nat) : Nat := Nat.xor (Nat.xor a b) c

/-- SHA-256 big sigma 0. -/
def bigSigma0 (x : Nat) : Nat := xor3 (rotr x 2) (rotr x 13) (rotr x 22)

/-- SHA-256 big sigma 1. -/
def bigSigma1 (x : Nat) : Nat := xor3 (rotr x 6) (rotr x 11) (rotr x 25)

/-- SHA-256 small sigma 0. -/
def smallSigma0 (x : Nat) : Nat := xor3 (rotr x 7) (rotr x 18) (x / 2 ^ 3)

/-- SHA-256 small sigma 1. -/
def smallSigma1 (x : Nat) : Nat := xor3 (rotr x 17) (rotr x 19) (x / 2 ^ 10)

/-- SHA-256 choice function; complement is xor with `2^32 - 1`. -/
def chF (x y z : Nat) : Nat :=
  Nat.xor (Nat.land x y) (Nat.land (Nat.xor x 4294967295) z)

/-- SHA-256 majority function. -/
def majF (x y z : Nat) : Nat :=
  Nat.xor (Nat.xor (Nat.land x y) (Nat.land x z)) (Nat.land y z)

/-- Primality test by trial division, used to generate the SHA-256 round
constants from the first primes. -/
def isPrimeNat (n : Nat) : Bool :=
  decide (2 ≤ n) && (List.range n).all (fun d => decide (d < 2) || decide (n % d ≠ 0))

/-- First `k` primes (all needed primes are below 400). -/
def firstPrimes (k : Nat) : List Nat :=
  ((List.range 400).filter isPrimeNat).take k

/-- Bit-by-bit integer cube root: largest `x` with `x^3 ≤ n`, for
`n < 2^120`. -/
def cbrtAux : Nat → Nat → Nat → Nat
  | 0, _, acc => acc
  | fuel + 1, n, acc =>
    let c := acc + 2 ^ fuel
    if c ^ 3 ≤ n then cbrtAux fuel n c else cbrtAux fuel n acc

/-- Integer cube root. -/
def natCbrt (n : Nat) : Nat := cbrtAux 40 n 0

/-- First 32 bits of the fractional part of the cube root of `p`. -/
def fracCbrt (p : Nat) : Nat := natCbrt (p * 2 ^ 96) % 4294967296

/-- First 32 bits of the fractional part of the square root of `p`. -/
def fracSqrt (p : Nat) : Nat := Nat.sqrt (p * 2 ^ 64) % 4294967296

/-- The 64 SHA-256 round constants. -/
def kConsts : List Nat := (firstPrimes 64).map fracCbrt

/-- The 8 initial SHA-256 hash words. -/
def hInitWords : List Nat := (firstPrimes 8).map fracSqrt

/-- Working registers / hash state of SHA-256. -/
structure Regs where
  a : Nat
  b : Nat
  c : Nat
  d : Nat
  e : Nat
  f : Nat
  g : Nat
  h : Nat

/-- Initial hash state. -/
def regsInit : Regs :=
  ⟨hInitWords.getD 0 0, hInitWords.getD 1 0, hInitWords.getD 2 0,
   hInitWords.getD 3 0, hInitWords.getD 4 0, hInitWords.getD 5 0,
   hInitWords.getD 6 0, hInitWords.getD 7 0⟩

/-- One SHA-256 round, consuming a pair (round constant, schedule word). -/
def roundStep (r : Regs) (kw : Nat × Nat) : Regs :=
  let t1 := w32 (r.h + bigSigma1 r.e + chF r.e r.f r.g + kw.1 + kw.2)
  let t2 := w32 (bigSigma0 r.a + majF r.a r.b r.c)
  ⟨w32 (t1 + t2), r.a, r.b, r.c, w32 (r.d + t1), r.e, r.f, r.g⟩

/-- Message-schedule extension.  The accumulator holds the schedule words
produced so far, most recent first, so `W[t-2]` is at index 1, `W[t-7]` at
index 6, `W[t-15]` at index 14 and `W[t-16]` at index 15. -/
def extendW : Nat → List Nat → List Nat
  | 0, l => l
  | k + 1, l =>
    extendW k
      (w32 (smallSigma1 (l.getD 1 0) + l.getD 6 0 +
            smallSigma0 (l.getD 14 0) + l.getD 15 0) :: l)

/-- The 64 schedule words of a 16-word block. -/
def scheduleOf (block : List Nat) : List Nat :=
  (extendW 48 block.reverse).reverse

/-- Compression of one 512-bit block into the hash state. -/
def compressBlock (hs : Regs) (block : List Nat) : Regs :=
  let r := (kConsts.zip (scheduleOf block)).foldl roundStep hs
  ⟨w32 (hs.a + r.a), w32 (hs.b + r.b), w32 (hs.c + r.c), w32 (hs.d + r.d),
   w32 (hs.e + r.e), w32 (hs.f + r.f), w32 (hs.g + r.g), w32 (hs.h + r.h)⟩

/-- Big-endian 8-byte encoding of the message bit length. -/
def beBytes8 (n : Nat) : List Nat :=
  [n / 2 ^ 56 % 256, n / 2 ^ 48 % 256, n / 2 ^ 40 % 256, n / 2 ^ 32 % 256,
   n / 2 ^ 24 % 256, n / 2 ^ 16 % 256, n / 2 ^ 8 % 256, n % 256]

/-- SHA-256 padding: append `0x80`, zeros to 56 mod 64, and the 64-bit
big-endian bit length. -/
def padBytes (msg : List Nat) : List Nat :=
  msg ++ 128 :: List.replicate ((119 - msg.length % 64) % 64) 0 ++
    beBytes8 (8 * msg.length)

/-- Group bytes into big-endian 32-bit words. -/
def toWords : List Nat → List Nat
  | b1 :: b2 :: b3 :: b4 :: rest =>
    (b1 * 2 ^ 24 + b2 * 2 ^ 16 + b3 * 2 ^ 8 + b4) :: toWords rest
  | _ => []

/-- Group words into 16-word blocks. -/
def toBlocks16 : List Nat → List (List Nat)
  | w1 :: w2 :: w3 :: w4 :: w5 :: w6 :: w7 :: w8 :: w9 :: w10 :: w11 ::
      w12 :: w13 :: w14 :: w15 :: w16 :: rest =>
    [w1, w2, w3, w4, w5, w6, w7, w8, w9, w10, w11, w12, w13, w14, w15, w16]
      :: toBlocks16 rest
  | _ => []

/-- UTF-8 encoding of one Unicode scalar value. -/
def utf8EncodeChar (c : Char) : List Nat :=
  let n := c.toNat
  if n < 128 then [n]
  else if n < 2048 then [192 + n / 64, 128 + n % 64]
  else if n < 65536 then [224 + n / 4096, 128 + n / 64 % 64, 128 + n % 64]
  else [240 + n / 262144, 128 + n / 4096 % 64, 128 + n / 64 % 64, 128 + n % 64]

/-- UTF-8 byte encoding of a string (Python `content.encode('utf-8')`). -/
def utf8Encode (s : String) : List Nat := s.data.flatMap utf8EncodeChar

/-- Full SHA-256 over a byte list, producing the final hash state. -/
def sha256Regs (msg : List Nat) : Regs :=
  (toBlocks16 (toWords (padBytes msg))).foldl compressBlock regsInit

/-- Lowercase hexadecimal digit. -/
def hexDigitCh (n : Nat) : Char := "0123456789abcdef".data.getD n '0'

/-- Eight hex digits of a 32-bit word, big-endian. -/
def hexWord8 (w : Nat) : List Char :=
  [hexDigitCh (w / 2 ^ 28 % 16), hexDigitCh (w / 2 ^ 24 % 16),
   hexDigitCh (w / 2 ^ 20 % 16), hexDigitCh (w / 2 ^ 16 % 16),
   hexDigitCh (w / 2 ^ 12 % 16), hexDigitCh (w / 2 ^ 8 % 16),
   hexDigitCh (w / 2 ^ 4 % 16), hexDigitCh (w % 16)]

/-- Hex rendering of the digest (`hexdigest()`), 64 characters. -/
def regsHex (r : Regs) : List Char :=
  hexWord8 r.a ++ hexWord8 r.b ++ hexWord8 r.c ++ hexWord8 r.d ++
  hexWord8 r.e ++ hexWord8 r.f ++ hexWord8 r.g ++ hexWord8 r.h

/-- Embedding of `WebsiteMonitor.calculate_hash`: SHA-256 hex digest of the
UTF-8 encoding of the content. -/
def calculate_hash (content : String) : String :=
  String.mk (regsHex (sha256Regs (utf8Encode content)))

/-! ## Repository functions -/

/-- Embedding of `WebsiteMonitor.normalize_content`.  `ignore_dynamic` is
`config['ignore_dynamic_content']`; `soupStrip` models the whole
BeautifulSoup `try` block (parse, decompose scripts/styles/dynamic-pattern
elements, re-serialise), returning `none` when it raises, in which case the
`except` branch returns the input unchanged. -/
def normalize_content (ignoreDynamic : Bool) (soupStrip : String → Option String)
    (content : String) : String :=
  if ignoreDynamic then (soupStrip content).getD content else content

/-- Embedding of `WebsiteMonitor.fetch_website_content` after a successful
(or failed, `none`) HTTP fetch: normalize, then optionally narrow to the
first match of the CSS selector.  `applySel` models `soup.select`; `none`
as its result models an empty selection, keeping the content whole. -/
def fetch_website_content (ignoreDynamic : Bool) (soupStrip : String → Option String)
    (applySel : Option (String → Option String)) (responseText : Option String) :
    Option String :=
  match responseText with
  | none => none
  | some txt =>
    let c := normalize_content ignoreDynamic soupStrip txt
    some (match applySel with
          | none => c
          | some f => (f c).getD c)

/-- Post-parse pipeline of `WebsiteMonitor.get_clean_text`, given the
stripped-tag text fragments collected from the parsed soup: strip each
fragment and keep the nonempty ones, join with single spaces, collapse
whitespace, strip, remove UI noise, collapse and strip again, and fall back
to the fixed sentinel when the result is empty. -/
def get_clean_text_core (texts : List String) : String :=
  let kept := (texts.map pyStrip).filter (fun t => decide (t ≠ ""))
  let full1 := pyStripL (pyCollapseWS (joinSpaceL (kept.map String.data)))
  let full2 := pyStripL (pyCollapseWS (removeUINoise full1))
  if full2 = [] then "No visible text" else String.mk full2

/-- Embedding of `WebsiteMonitor.get_clean_text` given the parse outcome:
`none` models the `except` branch (parse raised), `some texts` the visible
text fragments of the parsed soup. -/
def get_clean_text_result (parsed : Option (List String)) : String :=
  match parsed with
  | none => "Error extracting clean text"
  | some texts => get_clean_text_core texts

/-- Embedding of `WebsiteMonitor.get_clean_text`, parametrised by the
parser/extraction step `extract` (BeautifulSoup). -/
def get_clean_text (extract : String → Option (List String)) (content : String) :
    String :=
  get_clean_text_result (extract content)

/-- Parser model for markup-free content: `html.parser` yields the input
back as its single text node (no node at all for empty input), and does not
raise. -/
def plainParse (content : String) : Option (List String) :=
  some (if content = "" then [] else [content])

/-- The clean-text extractor on markup-free content. -/
def get_clean_text_plain (content : String) : String :=
  get_clean_text plainParse content

/-- Embedding of `WebsiteMonitor.get_content_snippet`:
`clean[:1000] + ("..." if len(clean) > 1000 else "")` where `clean` is the
clean text of the content. -/
def get_content_snippet (extract : String → Option (List String))
    (content : String) : String :=
  let t := get_clean_text extract content
  strTake t 1000 ++ (if 1000 < t.length then "..." else "")

/-- Embedding of the local `split_sentences` of
`WebsiteMonitor.find_content_differences`:
`[s.strip() for s in re.split(r'(?<=[.!?])\s+(?=[A-Z])', t) if len(s.strip()) > 30]`. -/
def split_sentences (t : String) : List String :=
  (((pySplitSegs t.data).map pyStripL).filter (fun l => decide (30 < l.length))).map
    String.mk

/-- The sentences of `new_text` not present (by string equality, Python set
membership) among the sentences of `old_text`. -/
def addedSentences (oldText newText : String) : List String :=
  (split_sentences newText).filter (fun s => decide (s ∉ split_sentences oldText))

/-- Descending-length order used by `sorted(added, key=len, reverse=True)`
(stable, like Python's sort). -/
def lenGe (a b : String) : Prop := b.length ≤ a.length

instance : DecidableRel lenGe := fun a b => Nat.decLe b.length a.length

instance : IsTotal String lenGe :=
  ⟨fun a b => (Nat.le_total b.length a.length).imp id id⟩

instance : IsTrans String lenGe :=
  ⟨fun _ _ _ hab hbc => Nat.le_trans hbc hab⟩

/-- Formatting of one difference entry:
`Added: "<s>"` with `s` truncated to its first 350 characters plus `...`
when longer than 350. -/
def fmtAdded (s : String) : String :=
  "Added: \"" ++ (if s.length ≤ 350 then s else strTake s 350 ++ "...") ++ "\""

/-- Embedding of `WebsiteMonitor.find_content_differences`. -/
def find_content_differences (oldText newText : String) : List String :=
  let diffs :=
    ((List.insertionSort lenGe (addedSentences oldText newText)).take 10).map
      fmtAdded
  if diffs = [] then ["Minor new text added"] else diffs

/-- Stored per-URL record of `website_data` (the persisted Snapshot). -/
structure SiteData where
  hash : String
  last_check : String
  content_snippet : String
  full_content : String
  clean_text : String
deriving DecidableEq

/-- The `change_info` dictionary returned on a reportable change. -/
structure ChangeInfo where
  url : String
  name : String
  previous_check : String
  current_check : String
  previous_full_content : String
  current_full_content : String
  current_snippet : String
deriving DecidableEq

/-- The `website_data` mapping, URL-keyed. -/
abbrev Store := List (String × SiteData)

/-- Dictionary lookup (`url in data` / `data[url]`). -/
def storeLookup (d : Store) (url : String) : Option SiteData :=
  match d with
  | [] => none
  | (u, v) :: rest => if u = url then some v else storeLookup rest url

/-- Dictionary assignment `data[url] = v` (overwrite or append). -/
def storeSet (d : Store) (url : String) (v : SiteData) : Store :=
  match d with
  | [] => [(url, v)]
  | (u, w) :: rest =>
    if u = url then (u, v) :: rest else (u, w) :: storeSet rest url v

/-- Record stored for a URL after a successful check. -/
def mkSiteData (h now snip content clean : String) : SiteData :=
  ⟨h, now, snip, content, clean⟩

/-- Embedding of `WebsiteMonitor.check_website` as a transition on the
store.  `fetched` is the result of `fetch_website_content` (`none` models a
fetch failure), `now` the value of `datetime.now().isoformat()` during this
check, `minChange` is `config['min_change_chars']`.  Returns the updated
store and the produced `change_info`, if any. -/
def check_website (extract : String → Option (List String)) (store : Store)
    (url name : String) (fetched : Option String) (now : String)
    (minChange : Int) : Store × Option ChangeInfo :=
  match fetched with
  | none => (store, none)
  | some content =>
    let contentHash := calculate_hash content
    let cleanText := get_clean_text extract content
    let snippet := get_content_snippet extract content
    match storeLookup store url with
    | some prev =>
      if contentHash = prev.hash then
        (storeSet store url { prev with last_check := now }, none)
      else if (((content.length : Int) - (prev.full_content.length : Int)).natAbs : Int)
          < minChange then
        (storeSet store url (mkSiteData contentHash now snippet content cleanText),
         none)
      else
        (storeSet store url (mkSiteData contentHash now snippet content cleanText),
         some ⟨url, name, prev.last_check, now, prev.clean_text, cleanText, snippet⟩)
    | none =>
      (storeSet store url (mkSiteData contentHash now snippet content cleanText),
       none)

/-! ## Auxiliary definitions for the digest-space cardinality argument -/

/-- Upper bound on `Char.toNat` (number of `UInt32` code points up to
`0x110000`). -/
def charBase : Nat := 1114112

/-- Base-`charBase` value of a character list, injective on lists of equal
length; used to embed digest strings into a finite type. -/
def encodeChars : List Char → Nat
  | [] => 0
  | c :: cs => c.toNat + charBase * encodeChars cs

/-- The string of `n` copies of `a`, an injective map from `Nat` into
`String`. -/
def repA (n : Nat) : String := String.mk (List.replicate n 'a')


/-! ## Helper lemmas -/

/-- Length of a string built from a character list. -/
theorem length_mkStr (l : List Char) : (String.mk l).length = l.length := rfl

/-- Length of one hex-rendered word. -/
theorem hexWord8_length (w : Nat) : (hexWord8 w).length = 8 := rfl

/-- The hex digest of `calculate_hash` always has 64 characters. -/
theorem calculate_hash_length (s : String) : (calculate_hash s).length = 64 := by
  show (regsHex (sha256Regs (utf8Encode s))).length = 64
  simp [regsHex, hexWord8]

/-- A digest is never equal to a string of another length. -/
theorem calculate_hash_ne_of_length {s t : String} (h : t.length ≠ 64) :
    calculate_hash s ≠ t := by
  intro he
  apply h
  rw [← he, calculate_hash_length]

/-- Character-list form of the digest length. -/
theorem calculate_hash_data_length (s : String) :
    (calculate_hash s).data.length = 64 :=
  calculate_hash_length s

/-- Looking up the key just written. -/
theorem storeLookup_storeSet_self (d : Store) (url : String) (v : SiteData) :
    storeLookup (storeSet d url v) url = some v := by
  induction d with
  | nil => simp [storeSet, storeLookup]
  | cons p rest ih =>
    obtain ⟨u, w⟩ := p
    by_cases h : u = url
    · simp [storeSet, storeLookup, h]
    · simp [storeSet, storeLookup, h, ih]

/-- Writing one key leaves every other key's entry unchanged. -/
theorem storeLookup_storeSet_ne (d : Store) (url u' : String) (v : SiteData)
    (h : u' ≠ url) :
    storeLookup (storeSet d url v) u' = storeLookup d u' := by
  induction d with
  | nil =>
    simp only [storeSet, storeLookup]
    rw [if_neg (fun hh => h hh.symm)]
  | cons p rest ih =>
    obtain ⟨u, w⟩ := p
    by_cases hu : u = url
    · subst hu
      simp only [storeSet, if_pos rfl, storeLookup]
      rw [if_neg (fun hh => h hh.symm), if_neg (fun hh => h hh.symm)]
    · simp only [storeSet, if_neg hu, storeLookup]
      by_cases hu' : u = u'
      · rw [if_pos hu', if_pos hu']
      · rw [if_neg hu', if_neg hu', ih]

/-- Stripping is idempotent. -/
theorem pyStripL_idem (l : List Char) : pyStripL (pyStripL l) = pyStripL l := by
  unfold pyStripL
  have h1 : List.dropWhile isPyWS
      (List.rdropWhile isPyWS (List.dropWhile isPyWS l)) =
      List.rdropWhile isPyWS (List.dropWhile isPyWS l) := by
    rw [List.dropWhile_eq_self_iff]
    intro hl
    have hpre := List.rdropWhile_prefix isPyWS (List.dropWhile isPyWS l)
    have hlen : 0 < (List.dropWhile isPyWS l).length :=
      Nat.lt_of_lt_of_le hl hpre.length_le
    have hget := hpre.getElem hl
    simp only [List.get_eq_getElem, hget]
    exact List.dropWhile_get_zero_not isPyWS l hlen
  rw [h1, List.rdropWhile_idempotent]

/-- Stripping an all-whitespace list gives the empty list. -/
theorem pyStripL_ws (l : List Char) (h : ∀ c ∈ l, isPyWS c) : pyStripL l = [] := by
  unfold pyStripL
  rw [List.dropWhile_eq_nil_iff.mpr h]
  simp

/-- Every produced sentence unit is its own strip and longer than 30
characters. -/
theorem mem_split_sentences {u t : String} (h : u ∈ split_sentences t) :
    30 < u.length ∧ pyStrip u = u := by
  unfold split_sentences at h
  rw [List.mem_map] at h
  obtain ⟨l, hl, rfl⟩ := h
  rw [List.mem_filter] at hl
  obtain ⟨hmem, hlen⟩ := hl
  rw [List.mem_map] at hmem
  obtain ⟨seg, _, rfl⟩ := hmem
  refine ⟨by simpa using hlen, ?_⟩
  show String.mk (pyStripL (pyStripL seg)) = String.mk (pyStripL seg)
  rw [pyStripL_idem]

/-- Appending the empty string is the identity. -/
theorem strAppend_empty (s : String) : s ++ "" = s := by
  cases s with
  | mk l => show String.mk (l ++ []) = String.mk l; rw [List.append_nil]

/-- Length of a string append. -/
theorem strLength_append (a b : String) : (a ++ b).length = a.length + b.length := by
  cases a with
  | mk l =>
    cases b with
    | mk m => show (l ++ m).length = l.length + m.length; rw [List.length_append]

/-- Length of a Python slice `s[:n]`. -/
theorem strTake_length (s : String) (n : Nat) : (strTake s n).length = min n s.length := by
  show (s.data.take n).length = min n s.data.length
  rw [List.length_take]

/-- Characters fit below `charBase`. -/
theorem char_toNat_lt (c : Char) : c.toNat < charBase := by
  have h := c.valid
  rcases h with h | ⟨_, h2⟩
  · exact Nat.lt_trans h (by norm_num [charBase])
  · exact h2

/-- The base-`charBase` value of a list is bounded by `charBase ^ length`. -/
theorem encodeChars_lt (l : List Char) : encodeChars l < charBase ^ l.length := by
  induction l with
  | nil => simp [encodeChars]
  | cons c cs ih =>
    have hc := char_toNat_lt c
    have h1 : c.toNat + charBase * encodeChars cs + 1 ≤
        charBase * (encodeChars cs + 1) := by
      have : charBase * (encodeChars cs + 1) = charBase * encodeChars cs + charBase :=
        by ring
      omega
    have h2 : charBase * (encodeChars cs + 1) ≤ charBase * charBase ^ cs.length :=
      Nat.mul_le_mul_left _ ih
    calc encodeChars (c :: cs) + 1 ≤ charBase * (encodeChars cs + 1) := h1
      _ ≤ charBase * charBase ^ cs.length := h2
      _ = charBase ^ (c :: cs).length := by rw [List.length_cons, pow_succ, mul_comm]

/-- Base-`charBase` values determine character lists of equal length. -/
theorem encodeChars_inj : ∀ l1 l2 : List Char, l1.length = l2.length →
    encodeChars l1 = encodeChars l2 → l1 = l2 := by
  intro l1
  induction l1 with
  | nil =>
    intro l2 hlen _
    cases l2 with
    | nil => rfl
    | cons d ds => simp at hlen
  | cons c cs ih =>
    intro l2 hlen henc
    cases l2 with
    | nil => simp at hlen
    | cons d ds =>
      have hc := char_toNat_lt c
      have hd := char_toNat_lt d
      simp only [encodeChars, charBase] at henc hc hd
      have hhead : c.toNat = d.toNat := by omega
      have htail : encodeChars cs = encodeChars ds := by omega
      have hcd : c = d := Char.eq_of_val_eq (UInt32.toNat.inj hhead)
      rw [hcd, ih ds (by simpa using hlen) htail]

/-- Strings with equal character data are equal. -/
theorem strEq_of_dataEq {a b : String} (h : a.data = b.data) : a = b := by
  cases a with
  | mk l =>
    cases b with
    | mk m =>
      have h2 : l = m := h
      rw [h2]

/-- Length of the replicated witness strings. -/
theorem repA_length (n : Nat) : (repA n).length = n := by
  show (List.replicate n 'a').length = n
  rw [List.length_replicate]

/-! ## Claim theorems -/

/-- Claim C2, counterexample: the UI-noise substitution of `get_clean_text`
has no word boundaries, so the letter sequence `search` inside the larger
word `research` is removed from the extracted text, contradicting the claim
that such in-word occurrences are not removed. -/
theorem C2_counterexample :
    get_clean_text_plain "We value research" = "We value re" ∧
    ("We value re" : String) ≠ "We value research" := by
  constructor
  · rfl
  · decide

/-- Claim C2, amended: the listed UI-chrome tokens are removed wherever
their letter sequence occurs (case-insensitively, leftmost occurrence
first, earlier alternatives preferred), not only as standalone words: for
any continuation `s`, scanning `research` followed by `s` removes the
embedded `search` and keeps only `re`, while a leading standalone `search`
is removed entirely. -/
theorem C2_substring_removal (s : List Char) :
    removeUINoise ("research".data ++ s) = 'r' :: 'e' :: removeUINoise s ∧
    removeUINoise ("search".data ++ s) = removeUINoise s := by
  constructor
  · rfl
  · rfl

/-- Claim C6: diffing a text against itself finds no added sentences and
returns exactly the fallback entry, never a sentence of the text itself. -/
theorem C6_identity_fallback (T : String) :
    find_content_differences T T = ["Minor new text added"] := by
  have h : addedSentences T T = [] := by
    apply List.filter_eq_nil_iff.mpr
    intro a ha
    simp [ha]
  simp [find_content_differences, h, List.insertionSort]

/-- Claim C7: `normalize_content` is the identity when
`ignore_dynamic_content` is disabled, and also returns the input unchanged
whenever the parse step fails; being a total function, it never raises. -/
theorem C7_normalize_identity (soupStrip : String → Option String) (content : String) :
    normalize_content false soupStrip content = content ∧
    (soupStrip content = none → normalize_content true soupStrip content = content) := by
  refine ⟨rfl, fun h => ?_⟩
  simp [normalize_content, h]

/-- Claim C7, witness at a concrete parser and content. -/
theorem C7_normalize_identity_witness :
    normalize_content false (fun _ => none) "c" = "c" ∧
    normalize_content true (fun _ => none) "c" = "c" :=
  ⟨(C7_normalize_identity (fun _ => none) "c").1,
   (C7_normalize_identity (fun _ => none) "c").2 rfl⟩

/-- Claim C8: on empty or pure-whitespace input the extractor returns the
fixed `No visible text` sentinel, the parse-failure branch returns
`Error extracting clean text`, and the two sentinels are distinct strings. -/
theorem C8_sentinels (content : String) (h : ∀ c ∈ content.data, isPyWS c) :
    get_clean_text_plain content = "No visible text" ∧
    get_clean_text (fun _ => none) content = "Error extracting clean text" ∧
    ("No visible text" : String) ≠ "Error extracting clean text" := by
  refine ⟨?_, rfl, by decide⟩
  unfold get_clean_text_plain get_clean_text plainParse get_clean_text_result
  by_cases hc : content = ""
  · subst hc
    rfl
  · rw [if_neg hc]
    have hstrip : pyStrip content = "" := by
      show String.mk (pyStripL content.data) = ""
      rw [pyStripL_ws _ h]
    have hmap : [content].map pyStrip = [""] := by
      rw [List.map_singleton, hstrip]
    show get_clean_text_core [content] = "No visible text"
    unfold get_clean_text_core
    simp only [hmap]
    rfl

/-- Claim C8, witness on a pure-whitespace page. -/
theorem C8_sentinels_witness :
    get_clean_text_plain "  " = "No visible text" ∧
    get_clean_text (fun _ => none) "  " = "Error extracting clean text" ∧
    ("No visible text" : String) ≠ "Error extracting clean text" :=
  C8_sentinels "  " (by decide)

/-- Claim C9, counterexample: `fingerprint(c1) = fingerprint(c2)` iff
`c1 = c2` cannot hold for `calculate_hash`, whose digests are 64-character
strings: more inputs than there are 64-character digests land in the finite
digest space, so the claimed equivalence fails (by pigeonhole). -/
theorem C9_counterexample :
    ¬ ∀ c1 c2 : String, calculate_hash c1 = calculate_hash c2 ↔ c1 = c2 := by
  intro hiff
  have hbound : ∀ n : Nat,
      encodeChars (calculate_hash (repA n)).data < charBase ^ 64 := by
    intro n
    have hb := encodeChars_lt (calculate_hash (repA n)).data
    rwa [calculate_hash_data_length] at hb
  have hcard : (Finset.range (charBase ^ 64)).card <
      (Finset.range (charBase ^ 64 + 1)).card := by
    simp
  have hmaps : ∀ a ∈ Finset.range (charBase ^ 64 + 1),
      encodeChars (calculate_hash (repA a)).data ∈ Finset.range (charBase ^ 64) :=
    fun a _ => Finset.mem_range.mpr (hbound a)
  obtain ⟨x, _, y, _, hne, heq⟩ :=
    Finset.exists_ne_map_eq_of_card_lt_of_maps_to hcard hmaps
  have h2 : (calculate_hash (repA x)).data = (calculate_hash (repA y)).data :=
    encodeChars_inj _ _
      (by rw [calculate_hash_data_length, calculate_hash_data_length]) heq
  have h3 : calculate_hash (repA x) = calculate_hash (repA y) := strEq_of_dataEq h2
  have h4 : repA x = repA y := (hiff _ _).mp h3
  have h5 := congrArg String.length h4
  rw [repA_length, repA_length] at h5
  exact hne h5

/-- Claim C9, amended: equal contents always produce equal digests (the
fingerprint is a pure, deterministic function of the UTF-8 encoded
content), and every digest is a 64-hex-character (256-bit) string; the
converse direction — distinct contents always produce distinct digests —
is an operating assumption about SHA-256, not a provable property of a
fixed-length digest. -/
theorem C9_amended_digest (c1 c2 : String) :
    (calculate_hash c1).length = 64 ∧
    (c1 = c2 → calculate_hash c1 = calculate_hash c2) :=
  ⟨calculate_hash_length c1, fun h => by rw [h]⟩

/-- Claim C9 amended, witness at a concrete content. -/
theorem C9_amended_digest_witness :
    (calculate_hash "a").length = 64 ∧ calculate_hash "a" = calculate_hash "a" :=
  ⟨(C9_amended_digest "a" "a").1, (C9_amended_digest "a" "a").2 rfl⟩

/-- Claim C10: the content snippet is the clean text itself when that text
has at most 1000 characters and otherwise its first 1000 characters
followed by `...`, hence never longer than 1003 characters. -/
theorem C10_snippet_truncation (extract : String → Option (List String))
    (content : String) :
    get_content_snippet extract content =
      (if (get_clean_text extract content).length ≤ 1000 then
        get_clean_text extract content
       else strTake (get_clean_text extract content) 1000 ++ "...") ∧
    (get_content_snippet extract content).length ≤ 1003 := by
  have hsnip : get_content_snippet extract content =
      strTake (get_clean_text extract content) 1000 ++
        (if 1000 < (get_clean_text extract content).length then "..." else "") := rfl
  by_cases h : (get_clean_text extract content).length ≤ 1000
  · have htake : strTake (get_clean_text extract content) 1000 =
        get_clean_text extract content := by
      have h2 : (get_clean_text extract content).data.take 1000 =
          (get_clean_text extract content).data := List.take_of_length_le h
      show String.mk ((get_clean_text extract content).data.take 1000) = _
      rw [h2]
    constructor
    · rw [hsnip, if_neg (not_lt.mpr h), if_pos h, htake, strAppend_empty]
    · rw [hsnip, if_neg (not_lt.mpr h), htake, strAppend_empty]
      exact le_trans h (by norm_num)
  · constructor
    · rw [hsnip, if_pos (not_le.mp h), if_neg h]
    · rw [hsnip, if_pos (not_le.mp h), strLength_append, strTake_length]
      have hmin : min 1000 (get_clean_text extract content).length = 1000 :=
        Nat.min_eq_left (le_of_lt (not_le.mp h))
      rw [hmin]
      decide

/-- Claim C4: on the first successful check of a target (no prior
Snapshot), no ChangeEvent is produced and the persisted Snapshot's
fingerprint is the digest of the normalized fetched content. -/
theorem C4_baseline_silent (extract : String → Option (List String))
    (ignoreDynamic : Bool) (soupStrip : String → Option String)
    (store : Store) (url name raw now : String) (minChange : Int)
    (h : storeLookup store url = none) :
    (check_website extract store url name
        (fetch_website_content ignoreDynamic soupStrip none (some raw)) now
        minChange).2 = none ∧
    (storeLookup (check_website extract store url name
        (fetch_website_content ignoreDynamic soupStrip none (some raw)) now
        minChange).1 url).map SiteData.hash
      = some (calculate_hash (normalize_content ignoreDynamic soupStrip raw)) := by
  have hf : fetch_website_content ignoreDynamic soupStrip none (some raw) =
      some (normalize_content ignoreDynamic soupStrip raw) := rfl
  rw [hf]
  constructor
  · simp only [check_website, h]
  · simp only [check_website, h, storeLookup_storeSet_self]
    simp [mkSiteData]

/-- Claim C4, witness at a concrete first check. -/
theorem C4_baseline_silent_witness :
    (check_website plainParse [] "u" "n"
        (fetch_website_content false (fun _ => none) none (some "x")) "t1" 50).2
      = none ∧
    (storeLookup (check_website plainParse [] "u" "n"
        (fetch_website_content false (fun _ => none) none (some "x")) "t1" 50).1
        "u").map SiteData.hash
      = some (calculate_hash (normalize_content false (fun _ => none) "x")) :=
  C4_baseline_silent plainParse false (fun _ => none) [] "u" "n" "x" "t1" 50 rfl

/-- Claim C5: when the current fingerprint equals the stored one, the check
produces no ChangeEvent and only the Snapshot's last-check timestamp is
updated; fingerprint, snippet, content and clean text stay unchanged, as do
the entries of every other target. -/
theorem C5_unchanged_timestamp_only (extract : String → Option (List String))
    (store : Store) (url name content now : String) (minChange : Int)
    (prev : SiteData)
    (h1 : storeLookup store url = some prev)
    (h2 : calculate_hash content = prev.hash) :
    (check_website extract store url name (some content) now minChange).2 = none ∧
    storeLookup (check_website extract store url name (some content) now
        minChange).1 url = some { prev with last_check := now } ∧
    ∀ u', u' ≠ url →
      storeLookup (check_website extract store url name (some content) now
          minChange).1 u' = storeLookup store u' := by
  refine ⟨?_, ?_, ?_⟩
  · simp only [check_website, h1]
    rw [if_pos h2]
  · simp only [check_website, h1]
    rw [if_pos h2]
    exact storeLookup_storeSet_self _ _ _
  · intro u' hu'
    simp only [check_website, h1]
    rw [if_pos h2]
    exact storeLookup_storeSet_ne _ _ _ _ hu'

/-- Claim C5, witness: a stored record whose fingerprint is the digest of
the refetched content. -/
theorem C5_unchanged_timestamp_only_witness :
    (check_website plainParse
        [("u", mkSiteData (calculate_hash "c") "t0" "s0" "c" "k0")]
        "u" "n" (some "c") "t1" 50).2 = none ∧
    storeLookup (check_website plainParse
        [("u", mkSiteData (calculate_hash "c") "t0" "s0" "c" "k0")]
        "u" "n" (some "c") "t1" 50).1 "u"
      = some (mkSiteData (calculate_hash "c") "t1" "s0" "c" "k0") ∧
    storeLookup (check_website plainParse
        [("u", mkSiteData (calculate_hash "c") "t0" "s0" "c" "k0")]
        "u" "n" (some "c") "t1" 50).1 "v"
      = storeLookup [("u", mkSiteData (calculate_hash "c") "t0" "s0" "c" "k0")] "v" := by
  have h := C5_unchanged_timestamp_only plainParse
      [("u", mkSiteData (calculate_hash "c") "t0" "s0" "c" "k0")] "u" "n" "c" "t1" 50
      (mkSiteData (calculate_hash "c") "t0" "s0" "c" "k0") rfl rfl
  exact ⟨h.1, h.2.1, h.2.2 "v" (by decide)⟩

/-- Claim C1, counterexample: a check whose fingerprint differs from the
stored one while the content-length delta (1 character) is below the
threshold (50) produces no ChangeEvent, but the stored Snapshot is NOT left
byte-identical: the tiny-change branch of `check_website` only logs, falls
through to the unconditional `self.website_data[url] = ...` assignment, and
overwrites the Snapshot. -/
theorem C1_counterexample :
    calculate_hash "x" ≠ (mkSiteData "h0" "t0" "s0" "" "k0").hash ∧
    (((("x" : String).length : Int) -
        ((mkSiteData "h0" "t0" "s0" "" "k0").full_content.length : Int)).natAbs : Int)
      < 50 ∧
    (check_website plainParse [("u", mkSiteData "h0" "t0" "s0" "" "k0")] "u" "n"
        (some "x") "t1" 50).2 = none ∧
    storeLookup (check_website plainParse [("u", mkSiteData "h0" "t0" "s0" "" "k0")]
        "u" "n" (some "x") "t1" 50).1 "u"
      ≠ some (mkSiteData "h0" "t0" "s0" "" "k0") := by
  have hne : calculate_hash "x" ≠ "h0" := calculate_hash_ne_of_length (by decide)
  have hlook : storeLookup [("u", mkSiteData "h0" "t0" "s0" "" "k0")] "u"
      = some (mkSiteData "h0" "t0" "s0" "" "k0") := rfl
  have hsmall : (((("x" : String).length : Int) -
      ((("" : String).length : Int))).natAbs : Int) < 50 := by decide
  refine ⟨hne, by decide, ?_, ?_⟩
  · simp only [check_website, hlook]
    simp only [mkSiteData]
    rw [if_neg hne, if_pos hsmall]
  · simp only [check_website, hlook]
    simp only [mkSiteData]
    rw [if_neg hne, if_pos hsmall, storeLookup_storeSet_self]
    intro hcontra
    simp only [Option.some.injEq, SiteData.mk.injEq] at hcontra
    exact hne hcontra.1

/-- Claim C1, amended: when the fingerprint differs but the content-length
delta is below `min_change_chars`, the check produces no ChangeEvent, but
the stored Snapshot is overwritten with the current check's values (new
fingerprint, timestamp, snippet, fetched content and clean text) rather
than left byte-identical. -/
theorem C1_amended_minor_change_overwrites (extract : String → Option (List String))
    (store : Store) (url name content now : String) (minChange : Int)
    (prev : SiteData)
    (h1 : storeLookup store url = some prev)
    (h2 : calculate_hash content ≠ prev.hash)
    (h3 : (((content.length : Int) - (prev.full_content.length : Int)).natAbs : Int)
      < minChange) :
    (check_website extract store url name (some content) now minChange).2 = none ∧
    storeLookup (check_website extract store url name (some content) now
        minChange).1 url
      = some (mkSiteData (calculate_hash content) now
          (get_content_snippet extract content) content
          (get_clean_text extract content)) := by
  constructor
  · simp only [check_website, h1]
    rw [if_neg h2, if_pos h3]
  · simp only [check_website, h1]
    rw [if_neg h2, if_pos h3]
    exact storeLookup_storeSet_self _ _ _

/-- Claim C1 amended, witness at the counterexample's concrete input. -/
theorem C1_amended_minor_change_overwrites_witness :
    (check_website plainParse [("u", mkSiteData "h0" "t0" "s0" "" "k0")] "u" "n"
        (some "x") "t1" 50).2 = none ∧
    storeLookup (check_website plainParse [("u", mkSiteData "h0" "t0" "s0" "" "k0")]
        "u" "n" (some "x") "t1" 50).1 "u"
      = some (mkSiteData (calculate_hash "x") "t1"
          (get_content_snippet plainParse "x") "x" (get_clean_text plainParse "x")) := by
  have hne : calculate_hash "x" ≠ (mkSiteData "h0" "t0" "s0" "" "k0").hash :=
    calculate_hash_ne_of_length (by decide)
  exact C1_amended_minor_change_overwrites plainParse
    [("u", mkSiteData "h0" "t0" "s0" "" "k0")] "u" "n" "x" "t1" 50
    (mkSiteData "h0" "t0" "s0" "" "k0") rfl hne (by decide)

/-- Claim C3: when at least one qualifying new sentence exists, the
difference list is built from sentence units of the current text that are
stripped and longer than 30 characters, ordered by descending unit length,
capped at 10 entries, each formatted as `Added: "<unit>"` with units longer
than 350 characters truncated to their first 350 plus an ellipsis. -/
theorem C3_differences_shape (oldText newText : String)
    (h : addedSentences oldText newText ≠ []) :
    ∃ units : List String,
      (∀ u ∈ units, u ∈ split_sentences newText ∧ pyStrip u = u ∧ 30 < u.length) ∧
      List.Sorted lenGe units ∧
      units.length ≤ 10 ∧
      find_content_differences oldText newText =
        units.map (fun u =>
          "Added: \"" ++ (if u.length ≤ 350 then u else strTake u 350 ++ "...") ++ "\"") := by
  refine ⟨(List.insertionSort lenGe (addedSentences oldText newText)).take 10,
    ?_, ?_, ?_, ?_⟩
  · intro u hu
    have hu1 : u ∈ List.insertionSort lenGe (addedSentences oldText newText) :=
      List.take_subset _ _ hu
    rw [List.mem_insertionSort] at hu1
    have hu2 : u ∈ split_sentences newText := List.mem_of_mem_filter hu1
    exact ⟨hu2, (mem_split_sentences hu2).2, (mem_split_sentences hu2).1⟩
  · exact List.Pairwise.sublist (List.take_sublist _ _)
      (List.sorted_insertionSort lenGe _)
  · exact List.length_take_le _ _
  · have hne : ((List.insertionSort lenGe
        (addedSentences oldText newText)).take 10).map fmtAdded ≠ [] := by
      rw [Ne, List.map_eq_nil_iff, List.take_eq_nil_iff]
      push_neg
      refine ⟨by decide, ?_⟩
      intro hsort
      apply h
      have hlen := List.length_insertionSort lenGe (addedSentences oldText newText)
      rw [hsort] at hlen
      exact List.length_eq_zero.mp hlen.symm
    show find_content_differences oldText newText = _
    unfold find_content_differences
    rw [if_neg hne]
    rfl

/-- Claim C3, witness at a concrete empty-to-one-sentence diff. -/
theorem C3_differences_shape_witness :
    addedSentences "" "Today we launched a brand new product line for them." ≠ [] ∧
    (∃ units : List String,
      (∀ u ∈ units,
        u ∈ split_sentences "Today we launched a brand new product line for them." ∧
        pyStrip u = u ∧ 30 < u.length) ∧
      List.Sorted lenGe units ∧
      units.length ≤ 10 ∧
      find_content_differences "" "Today we launched a brand new product line for them." =
        units.map (fun u =>
          "Added: \"" ++ (if u.length ≤ 350 then u else strTake u 350 ++ "...") ++ "\"")) :=
  ⟨by decide,
   C3_differences_shape "" "Today we launched a brand new product line for them."
     (by decide)⟩
